import Mathlib

/-!
Shallow embedding of the tile-dashboard synchronization core
(`src/types.ts` App component and `src/unnamed/part_000` LinkManager),
together with proofs of the testable properties stated by the specification.

JavaScript conventions used throughout the embedding:
* `undefined`/`null` on optional string fields is `Option.none`;
  the JS truthiness coercion `x || null` / `x || undefined` (which also
  sends the empty string to null/undefined) is `jsStr`.
* JS arrays are `List`; `Array.prototype.splice` clamping semantics are
  spelled out with `take`/`drop`; a possibly-`undefined` array element is
  `Option α`.
* Asynchronous store operations are parametrised by an explicit Boolean
  outcome (`true` = the awaited call succeeded, `false` = it threw).
* The Supabase row timestamp columns `created_at`/`updated_at` are not
  modelled: no verified property reads them (the fetch path leaves the
  `lastUpdated` display value unchanged in the model for the same reason).
-/

namespace Seren

/-- Structure `TileDefinition` from `src/types.ts`. -/
structure Tile where
  id : String
  label : String
  url : String
  icon : String
  imageUrl : Option String
  description : Option String
deriving DecidableEq

/-- A persisted row of the Supabase `tiles` table (timestamp columns omitted,
see module comment). -/
structure TileRow where
  id : String
  label : String
  url : String
  icon : String
  image_url : Option String
  description : Option String
  sort_order : Nat
deriving DecidableEq

/-- JS `x || null` (equally `x || undefined`) on an optional string:
`undefined`, `null` and `""` are all falsy and collapse to `none`. -/
def jsStr : Option String → Option String
  | none => none
  | some s => if s = "" then none else some s

/-- The row built for a tile at position `index` (the object literal shared by
`handleSave` and `seedDefaultTiles` in `src/types.ts`). -/
def tileToRow (t : Tile) (index : Nat) : TileRow :=
  { id := t.id, label := t.label, url := t.url, icon := t.icon,
    image_url := jsStr t.imageUrl, description := jsStr t.description,
    sort_order := index }

/-- The row-to-tile field mapping used by `fetchTiles` in `src/types.ts`. -/
def rowToTile (r : TileRow) : Tile :=
  { id := r.id, label := r.label, url := r.url, icon := r.icon,
    imageUrl := jsStr r.image_url, description := jsStr r.description }

/-- Helper for `tiles.map((tile, index) => ({...}))`: rows numbered from `k`. -/
def rowsFrom (k : Nat) : List Tile → List TileRow
  | [] => []
  | t :: ts => tileToRow t k :: rowsFrom (k + 1) ts

/-- The insert payload of `handleSave`/`seedDefaultTiles`: each tile becomes a
row whose `sort_order` is its index in the sequence. -/
def tilesToRows (ts : List Tile) : List TileRow := rowsFrom 0 ts

/-- Insert a row into a list that is ascending on `sort_order`. -/
def insertRow (r : TileRow) : List TileRow → List TileRow
  | [] => [r]
  | x :: xs => if r.sort_order ≤ x.sort_order then r :: x :: xs else x :: insertRow r xs

/-- The store query: select all rows ordered by `sort_order` ascending:
an ascending sort on `sort_order` (all verified scenarios have pairwise
distinct `sort_order` keys, so which ascending sort is immaterial). -/
def sortRows (l : List TileRow) : List TileRow := l.foldr insertRow []

/-- Constant `DEFAULT_TILES` from `src/constants.tsx`. -/
def DEFAULT_TILES : List Tile :=
  [ { id := "clearcare", label := "ClearCare", url := "https://example.com/clearcare",
      icon := "HeartHandshake", imageUrl := none, description := some "Care management system" },
    { id := "email", label := "Email", url := "https://outlook.office.com",
      icon := "Mail", imageUrl := none, description := some "Microsoft Outlook Web" },
    { id := "teams", label := "Teams", url := "https://teams.microsoft.com",
      icon := "Users", imageUrl := none, description := some "Communication & Meetings" },
    { id := "sharepoint", label := "SharePoint", url := "https://example.com/sharepoint",
      icon := "Files", imageUrl := none, description := some "Documents & Intranet" },
    { id := "incident", label := "Incident Log", url := "https://example.com/incidents",
      icon := "AlertTriangle", imageUrl := none, description := some "Safeguarding & Reporting" },
    { id := "rota", label := "Staff Rota", url := "https://example.com/rota",
      icon := "Calendar", imageUrl := none, description := some "Schedules & Shifts" },
    { id := "policies", label := "Policies Folder", url := "https://example.com/policies",
      icon := "ShieldCheck", imageUrl := none, description := some "Procedures & Compliance" },
    { id := "ciw", label := "CIW / Regulations", url := "https://careinspectorate.wales",
      icon := "BookOpen", imageUrl := none, description := some "Reference Area" } ]

/-- The App component state relevant to the verified properties
(`tiles`, `lastUpdated`, `error`, `isSaving`, `isManaging` from
`src/types.ts`; the transient `isLoading` spinner flag is omitted). -/
structure AppState where
  tiles : List Tile
  lastUpdated : Option String
  error : Option String
  isSaving : Bool
  isManaging : Bool
deriving DecidableEq

/-- Function `seedDefaultTiles` from `src/types.ts`: insert the default rows
(`sort_order` = index); on success or on insert failure alike, adopt
`DEFAULT_TILES` as the canonical list (the failure is only logged — no
`setError` call exists in this function). -/
def seedDefaultTiles (db : List TileRow) (st : AppState) (insertOk : Bool) :
    List TileRow × AppState :=
  if insertOk then (db ++ tilesToRows DEFAULT_TILES, { st with tiles := DEFAULT_TILES })
  else (db, { st with tiles := DEFAULT_TILES })

/-- Function `fetchTiles` from `src/types.ts`: select all rows ordered by `sort_order`;
on transport failure set an error and fall back to the defaults in memory;
on an empty result seed the store; otherwise adopt the mapped rows. -/
def fetchTiles (db : List TileRow) (st : AppState) (fetchOk seedInsertOk : Bool) :
    List TileRow × AppState :=
  if fetchOk then
    let sorted := sortRows db
    if sorted.isEmpty then
      seedDefaultTiles db { st with error := none } seedInsertOk
    else
      (db, { st with error := none, tiles := sorted.map rowToTile })
  else
    (db, { st with error := some "Failed to load links. Please refresh the page.",
                   tiles := DEFAULT_TILES })

/-- Function `handleSave` from `src/types.ts`: delete every row whose id is
not the empty string (the delete uses a neq filter on id), then insert the
new tiles with `sort_order` =
index; on success adopt the list, stamp `lastUpdated` and close the manager;
on either store failure set the save error and leave tiles/lastUpdated as
they were. -/
def handleSave (db : List TileRow) (st : AppState) (newTiles : List Tile)
    (deleteOk insertOk : Bool) (now : String) : List TileRow × AppState :=
  if deleteOk then
    let db1 := db.filter fun r => r.id = ""
    if insertOk then
      (db1 ++ tilesToRows newTiles,
       { st with tiles := newTiles, lastUpdated := some now,
                 isManaging := false, error := none, isSaving := false })
    else
      (db1, { st with error := some "Failed to save changes. Please try again.",
                      isSaving := false })
  else
    (db, { st with error := some "Failed to save changes. Please try again.",
                   isSaving := false })

/-- Function `handleReset` from `src/types.ts`: delete every row whose id is
not the empty string, then re-seed via `seedDefaultTiles` (whose insert
failure is swallowed there), clear `lastUpdated` and close the manager; only
a delete failure reaches the catch block of this function. -/
def handleReset (db : List TileRow) (st : AppState) (deleteOk insertOk : Bool) :
    List TileRow × AppState :=
  if deleteOk then
    let db1 := db.filter fun r => r.id = ""
    let r := seedDefaultTiles db1 { st with error := none } insertOk
    (r.1, { r.2 with lastUpdated := none, isManaging := false, isSaving := false })
  else
    (db, { st with error := some "Failed to reset. Please try again.",
                   isSaving := false })

/-- The editable field names passed to `handleUpdateTile` by the LinkManager
UI (`label`, `url`, `icon`, `imageUrl`, `description`; no call site passes
the `id` field). -/
inductive TileField
  | label
  | url
  | icon
  | imageUrl
  | description
deriving DecidableEq

/-- The spread update `{ ...t, [field]: value }` for the fields the UI edits (a JS string
assignment into an optional field stores the string, even when empty). -/
def setField (t : Tile) : TileField → String → Tile
  | TileField.label, v => { t with label := v }
  | TileField.url, v => { t with url := v }
  | TileField.icon, v => { t with icon := v }
  | TileField.imageUrl, v => { t with imageUrl := some v }
  | TileField.description, v => { t with description := some v }

/-- Function `handleUpdateTile` from `src/unnamed/part_000`. -/
def handleUpdateTile (tiles : List Tile) (id : String) (f : TileField) (v : String) :
    List Tile :=
  tiles.map fun t => if t.id = id then setField t f v else t

/-- The id generated by `handleAddTile`: `` `custom-${Date.now()}` ``
(`now` is the millisecond timestamp, rendered in decimal). -/
def customId (now : Nat) : String := "custom-" ++ Nat.repr now

/-- Function `handleAddTile` from `src/unnamed/part_000`: append a fresh tile. -/
def handleAddTile (tiles : List Tile) (now : Nat) : List Tile :=
  tiles ++ [{ id := customId now, label := "New App", url := "", icon := "Globe",
              imageUrl := none, description := some "Description here" }]

/-- A sequence of `handleAddTile` calls, one per observed timestamp. -/
def addTiles (tiles : List Tile) (times : List Nat) : List Tile :=
  times.foldl handleAddTile tiles

/-- Function `handleDrop` from `src/unnamed/part_000`, the reorder core:
`splice(draggedIndex, 1)` out of a copy, then `splice(dropIndex, 0, dragged)`.
JS `splice` clamps out-of-range start positions, and destructuring the
removed slice of an out-of-bounds `draggedIndex` yields `undefined`, which is
then inserted — hence the `Option α` element type of the result. -/
def handleDrop {α : Type} (tiles : List α) (draggedIndex : Option Nat)
    (dropIndex : Nat) : List (Option α) :=
  match draggedIndex with
  | none => tiles.map some
  | some i =>
    if i = dropIndex then tiles.map some
    else
      let newTiles := (tiles.map some).take i ++ (tiles.map some).drop (i + 1)
      newTiles.take dropIndex ++ tiles[i]? :: newTiles.drop dropIndex

/-- A browser `File`: name and byte size. -/
structure JsFile where
  name : String
  size : Nat

/-- The LinkManager state touched by the image operations. -/
structure LMState where
  tiles : List Tile
  uploadingId : Option String
deriving DecidableEq

/-- Function `handleImageUpload` from `src/unnamed/part_000`, end-to-end effect of one
call: the `> 2MB` pre-check alerts and returns before any state change;
otherwise the upload runs (marking `uploadingId` in flight, cleared again in
the `finally`), and on success the `imageUrl` of the tile is set to the public
URL; on failure an alert is shown and `imageUrl` is untouched.
The second component is the alert message, if any. -/
def handleImageUpload (s : LMState) (id : String) (file : JsFile)
    (uploadOk : Bool) (publicUrl : String) : LMState × Option String :=
  if file.size > 2 * 1024 * 1024 then
    (s, some "Image is too large. Please use an image smaller than 2MB.")
  else if uploadOk then
    ({ tiles := handleUpdateTile s.tiles id TileField.imageUrl publicUrl,
       uploadingId := none }, none)
  else
    ({ s with uploadingId := none }, some "Failed to upload image. Please try again.")

/-- Function `handleRemoveImage` from `src/unnamed/part_000`: return early on a falsy
`imageUrl` (`undefined` or `""`); otherwise best-effort delete the blob
(`deleteOk` is the store outcome — a failure is logged and swallowed), then
clear the `imageUrl` of the tile to the empty string either way. -/
def handleRemoveImage (tiles : List Tile) (id : String) (imageUrl : Option String)
    (_deleteOk : Bool) : List Tile :=
  match imageUrl with
  | none => tiles
  | some u =>
    if u = "" then tiles
    else handleUpdateTile tiles id TileField.imageUrl ""

/-- Upload lifecycle events of the LinkManager: `start id` is the
`setUploadingId(id)` at the head of `handleImageUpload`; `finish id` is the
resolution (success or failure) of the upload for that tile, whose `finally`
block runs `setUploadingId(null)` unconditionally. -/
inductive UploadEvent
  | start (id : String)
  | finish (id : String)
deriving DecidableEq

/-- The single-slot `uploadingId` marker of the component, instrumented with
the ghost list `inflight` of uploads actually pending (newest first). -/
structure UploadTrack where
  uploadingId : Option String
  inflight : List String
deriving DecidableEq

/-- Effect of one upload event on the marker (per the source: `start` stores
the id, `finish` clears the slot regardless of which upload resolved). -/
def stepUpload (st : UploadTrack) : UploadEvent → UploadTrack
  | UploadEvent.start id => { uploadingId := some id, inflight := id :: st.inflight }
  | UploadEvent.finish id => { uploadingId := none, inflight := st.inflight.erase id }

/-- Run an event trace from the initial (idle) marker state. -/
def runUpload (evs : List UploadEvent) : UploadTrack :=
  evs.foldl stepUpload { uploadingId := none, inflight := [] }

/-- Traces in which uploads never overlap: a `start` fires only when nothing
is in flight, and a `finish` resolves the one pending upload. -/
def seqOk : UploadTrack → List UploadEvent → Bool
  | _, [] => true
  | st, UploadEvent.start id :: rest =>
    st.inflight.isEmpty && seqOk (stepUpload st (UploadEvent.start id)) rest
  | st, UploadEvent.finish id :: rest =>
    (st.inflight == [id]) && seqOk (stepUpload st (UploadEvent.finish id)) rest

/-- The Save Changes button condition `disabled={isSaving || uploadingId !== null}`
condition (`src/unnamed/part_000`, commit guard). -/
def saveButtonDisabled (isSaving : Bool) (uploadingId : Option String) : Bool :=
  isSaving || uploadingId.isSome

/-- Structural decimal rendering of a natural number, most significant digit
first; proved below to agree with the fuelled core function `Nat.toDigitsCore`. -/
def decDigits (n : Nat) : List Char :=
  if n < 10 then [Nat.digitChar n]
  else decDigits (n / 10) ++ [Nat.digitChar (n % 10)]
decreasing_by omega

/-- Decimal decoding, inverse to `decDigits`. -/
def decodeDigits (l : List Char) : Nat :=
  l.foldl (fun a c => 10 * a + (c.toNat - 48)) 0

/-! ### Helper lemmas -/

lemma getElem?_append_cons_len {β : Type} (A B : List β) (x : β) :
    (A ++ x :: B)[A.length]? = some x := by
  induction A with
  | nil => simp
  | cons a A ih => simpa using ih

lemma eraseIdx_append_cons_len {β : Type} (A B : List β) (x : β) :
    (A ++ x :: B).eraseIdx A.length = A ++ B := by
  induction A with
  | nil => rfl
  | cons a A ih => simpa using ih

lemma perm_getElem_cons_eraseIdx {β : Type} (S : List β) (i : Nat) (h : i < S.length) :
    S.Perm (S[i] :: S.eraseIdx i) := by
  conv_lhs => rw [← List.take_append_drop i S, List.drop_eq_getElem_cons h]
  rw [List.eraseIdx_eq_take_drop_succ]
  exact List.perm_middle

lemma toDigitsCore_eq_decDigits : ∀ (fuel n : Nat) (ds : List Char), n < fuel →
    Nat.toDigitsCore 10 fuel n ds = decDigits n ++ ds := by
  intro fuel
  induction fuel with
  | zero => intro n ds h; omega
  | succ f ih =>
    intro n ds h
    rw [Nat.toDigitsCore]
    by_cases h10 : n / 10 = 0
    · rw [if_pos h10]
      have hn : n < 10 := by omega
      rw [decDigits, if_pos hn, Nat.mod_eq_of_lt hn]
      rfl
    · have hD : decDigits n = decDigits (n / 10) ++ [Nat.digitChar (n % 10)] := by
        rw [decDigits]
        rw [if_neg (by omega : ¬ n < 10)]
      rw [if_neg h10, ih (n / 10) _ (by omega), hD]
      simp

lemma repr_eq_decDigits (n : Nat) : Nat.repr n = (decDigits n).asString := by
  rw [Nat.repr, Nat.toDigits, toDigitsCore_eq_decDigits (n + 1) n [] (Nat.lt_succ_self n),
    List.append_nil]

lemma digitChar_decode : ∀ d : Nat, d < 10 → (Nat.digitChar d).toNat - 48 = d := by decide

lemma decodeDigits_append (l : List Char) (c : Char) :
    decodeDigits (l ++ [c]) = 10 * decodeDigits l + (c.toNat - 48) := by
  rw [decodeDigits, List.foldl_append]
  rfl

lemma decodeDigits_decDigits (n : Nat) : decodeDigits (decDigits n) = n := by
  induction n using Nat.strong_induction_on with
  | _ n ih =>
    by_cases h : n < 10
    · rw [decDigits, if_pos h]
      have h1 : decodeDigits [Nat.digitChar n] = (Nat.digitChar n).toNat - 48 := by
        simp [decodeDigits]
      rw [h1, digitChar_decode n h]
    · rw [decDigits, if_neg h, decodeDigits_append, ih (n / 10) (by omega),
        digitChar_decode (n % 10) (Nat.mod_lt n (by omega))]
      omega

lemma repr_injective (m n : Nat) (h : Nat.repr m = Nat.repr n) : m = n := by
  have h2 : decDigits m = decDigits n := by
    have h3 := congrArg String.data h
    rw [repr_eq_decDigits, repr_eq_decDigits] at h3
    exact h3
  calc m = decodeDigits (decDigits m) := (decodeDigits_decDigits m).symm
    _ = decodeDigits (decDigits n) := by rw [h2]
    _ = n := decodeDigits_decDigits n

lemma customId_injective (m n : Nat) (h : customId m = customId n) : m = n := by
  have h2 := congrArg String.data h
  rw [customId, customId, String.data_append, String.data_append] at h2
  exact repr_injective m n (String.ext (List.append_cancel_left h2))

lemma ids_addTiles (tiles : List Tile) (times : List Nat) :
    (addTiles tiles times).map Tile.id = tiles.map Tile.id ++ times.map customId := by
  induction times generalizing tiles with
  | nil => simp [addTiles]
  | cons t ts ih =>
    have h1 : addTiles tiles (t :: ts) = addTiles (handleAddTile tiles t) ts := rfl
    rw [h1, ih, handleAddTile]
    simp

/-! ### C1 / C8: the reorder core -/

/-- C1. For every tile sequence `S` and valid distinct indices `i ≠ j`, the
extract-then-insert of `handleDrop` yields a sequence with exactly the same
elements (a permutation of `S`), the element originally at `i` now at
position `j`, and all other elements in their original relative order
(erasing position `j` of the result recovers `S` with position `i` erased). -/
theorem handleDrop_reorder_spec {α : Type} (S : List α) (i j : Nat)
    (hi : i < S.length) (hj : j < S.length) (hij : i ≠ j) :
    (handleDrop S (some i) j).Perm (S.map some)
  ∧ (handleDrop S (some i) j)[j]? = some (some S[i])
  ∧ (handleDrop S (some i) j).eraseIdx j = (S.eraseIdx i).map some := by
  set M := (S.eraseIdx i).map some with hM
  have hres : handleDrop S (some i) j = M.take j ++ some S[i] :: M.drop j := by
    show (if i = j then S.map some else _) = _
    rw [if_neg hij, List.getElem?_eq_getElem hi, hM, List.eraseIdx_eq_take_drop_succ,
      List.map_append, List.map_take, List.map_drop]
  have hMlen : (M.take j).length = j := by
    rw [List.length_take, hM, List.length_map, List.length_eraseIdx, if_pos hi]
    omega
  refine ⟨?_, ?_, ?_⟩
  · rw [hres]
    refine List.perm_middle.trans ?_
    rw [List.take_append_drop]
    have h2 : (S.map some).Perm ((S[i] :: S.eraseIdx i).map some) :=
      (perm_getElem_cons_eraseIdx S i hi).map some
    rw [List.map_cons] at h2
    exact h2.symm
  · have := getElem?_append_cons_len (M.take j) (M.drop j) (some S[i])
    rw [hMlen] at this
    rw [hres, this]
  · have := eraseIdx_append_cons_len (M.take j) (M.drop j) (some S[i])
    rw [hMlen] at this
    rw [hres, this, List.take_append_drop]

/-- Witness for `handleDrop_reorder_spec` at `S = [10, 20, 30]`, `i = 0`,
`j = 2`. -/
theorem handleDrop_reorder_spec_w :
    (0 < ([10, 20, 30] : List Nat).length ∧ 2 < ([10, 20, 30] : List Nat).length
      ∧ (0 : Nat) ≠ 2)
  ∧ (handleDrop [10, 20, 30] (some 0) 2).Perm (([10, 20, 30] : List Nat).map some)
  ∧ (handleDrop [10, 20, 30] (some 0) 2)[2]? = some (some ([10, 20, 30] : List Nat)[0])
  ∧ (handleDrop [10, 20, 30] (some 0) 2).eraseIdx 2 =
      (([10, 20, 30] : List Nat).eraseIdx 0).map some :=
  ⟨⟨by decide, by decide, by decide⟩,
   handleDrop_reorder_spec [10, 20, 30] 0 2 (by decide) (by decide) (by decide)⟩

/-- C8 counterexample. The code guards only `draggedIndex === dropIndex`:
with the in-bounds source index `0` and the out-of-bounds target index `5`
on a two-element sequence, the drop is NOT a no-op — JS `splice` clamps the
insertion position, moving the dragged element to the end. -/
theorem handleDrop_oob_not_noop :
    handleDrop [0, 1] (some 0) 5 ≠ (([0, 1] : List Nat).map some)
  ∧ handleDrop [0, 1] (some 0) 5 = [some 1, some 0] := by
  constructor
  · decide
  · decide

/-- C8 (amended). `handleDrop` is a no-op (the working sequence is returned
unchanged) when no drag is in progress or when the source and target indices
are equal; out-of-bounds indices are not guarded. -/
theorem handleDrop_noop {α : Type} (S : List α) (d : Option Nat) (j : Nat)
    (h : d = none ∨ d = some j) : handleDrop S d j = S.map some := by
  rcases h with h | h <;> subst h <;> simp [handleDrop]

/-- Witness for `handleDrop_noop` at `S = [5, 6]`, dragged index `1`,
drop index `1`. -/
theorem handleDrop_noop_w :
    ((some 1 : Option Nat) = none ∨ (some 1 : Option Nat) = some 1)
  ∧ handleDrop [5, 6] (some 1) 1 = (([5, 6] : List Nat).map some) :=
  ⟨Or.inr rfl, handleDrop_noop [5, 6] (some 1) 1 (Or.inr rfl)⟩

/-! ### C3: id uniqueness under `handleAddTile` -/

/-- C3 counterexample. Two `handleAddTile` calls that observe the same
`Date.now()` value (two calls within the same millisecond) generate the same
id `custom-0`: starting from the (trivially distinct-id) empty working copy,
the ids are no longer pairwise distinct. -/
theorem addTiles_duplicate_ids :
    (([] : List Tile).map Tile.id).Nodup
  ∧ ¬ ((addTiles [] [0, 0]).map Tile.id).Nodup := by
  constructor
  · simp
  · decide

/-- C3 (amended). After any sequence of `handleAddTile` calls, all ids in the
working copy remain pairwise distinct, provided the calls observe pairwise
distinct timestamps and no pre-existing id equals `custom-` followed by one
of those timestamps. -/
theorem addTiles_ids_nodup (tiles : List Tile) (times : List Nat)
    (h0 : (tiles.map Tile.id).Nodup) (h1 : times.Nodup)
    (h2 : ∀ t ∈ times, customId t ∉ tiles.map Tile.id) :
    ((addTiles tiles times).map Tile.id).Nodup := by
  rw [ids_addTiles, List.nodup_append]
  refine ⟨h0, ?_, ?_⟩
  · exact h1.map (fun a b hab => customId_injective a b hab)
  · intro a ha hb
    rw [List.mem_map] at hb
    obtain ⟨t, ht, rfl⟩ := hb
    exact h2 t ht ha

/-- Witness for `addTiles_ids_nodup`: two adds at timestamps 3 and 4 on the
empty working copy. -/
theorem addTiles_ids_nodup_w :
    (([] : List Tile).map Tile.id).Nodup
  ∧ ([3, 4] : List Nat).Nodup
  ∧ (∀ t ∈ ([3, 4] : List Nat), customId t ∉ ([] : List Tile).map Tile.id)
  ∧ ((addTiles [] [3, 4]).map Tile.id).Nodup :=
  ⟨by simp, by decide, by simp,
   addTiles_ids_nodup [] [3, 4] (by simp) (by decide) (by simp)⟩

/-! ### C2: commit / fetch round-trip -/

lemma rowsFrom_sort_order_ge (k : Nat) (ts : List Tile) :
    ∀ r ∈ rowsFrom k ts, k ≤ r.sort_order := by
  induction ts generalizing k with
  | nil => intro r hr; cases hr
  | cons t ts ih =>
    intro r hr
    rw [rowsFrom, List.mem_cons] at hr
    rcases hr with rfl | hr
    · exact Nat.le_refl _
    · exact Nat.le_of_succ_le (ih (k + 1) r hr)

lemma rowsFrom_pairwise (k : Nat) (ts : List Tile) :
    (rowsFrom k ts).Pairwise fun a b => a.sort_order ≤ b.sort_order := by
  induction ts generalizing k with
  | nil => exact List.Pairwise.nil
  | cons t ts ih =>
    rw [rowsFrom, List.pairwise_cons]
    refine ⟨fun r hr => ?_, ih (k + 1)⟩
    exact Nat.le_of_succ_le (rowsFrom_sort_order_ge (k + 1) ts r hr)

lemma insertRow_eq_cons (x : TileRow) (xs : List TileRow)
    (h : ∀ y ∈ xs, x.sort_order ≤ y.sort_order) : insertRow x xs = x :: xs := by
  cases xs with
  | nil => rfl
  | cons y ys =>
    rw [insertRow, if_pos (h y (List.mem_cons_self y ys))]

lemma sortRows_eq_self (l : List TileRow)
    (h : l.Pairwise fun a b => a.sort_order ≤ b.sort_order) : sortRows l = l := by
  induction l with
  | nil => rfl
  | cons x xs ih =>
    rw [List.pairwise_cons] at h
    have h1 : sortRows (x :: xs) = insertRow x (sortRows xs) := rfl
    rw [h1, ih h.2, insertRow_eq_cons x xs h.1]

lemma rowToTile_tileToRow (t : Tile) (k : Nat)
    (h1 : t.imageUrl ≠ some "") (h2 : t.description ≠ some "") :
    rowToTile (tileToRow t k) = t := by
  have himg : jsStr (jsStr t.imageUrl) = t.imageUrl := by
    cases ht : t.imageUrl with
    | none => rfl
    | some s =>
      have hs : s ≠ "" := by intro hs; exact h1 (by rw [ht, hs])
      simp [jsStr, hs]
  have hdesc : jsStr (jsStr t.description) = t.description := by
    cases ht : t.description with
    | none => rfl
    | some s =>
      have hs : s ≠ "" := by intro hs; exact h2 (by rw [ht, hs])
      simp [jsStr, hs]
  simp [rowToTile, tileToRow, himg, hdesc]

lemma fetchTiles_of_sorted_ne_nil (db : List TileRow) (st : AppState) (sOk : Bool)
    (h : sortRows db = db) (hne : db ≠ []) :
    (fetchTiles db st true sOk).2.tiles = db.map rowToTile := by
  obtain ⟨r, rs, rfl⟩ := List.exists_cons_of_ne_nil hne
  simp [fetchTiles, h]

lemma rowsFrom_map_rowToTile (k : Nat) (ts : List Tile)
    (h : ∀ t ∈ ts, t.imageUrl ≠ some "" ∧ t.description ≠ some "") :
    (rowsFrom k ts).map rowToTile = ts := by
  induction ts generalizing k with
  | nil => rfl
  | cons t ts ih =>
    have ht := h t (List.mem_cons_self t ts)
    rw [rowsFrom, List.map_cons, rowToTile_tileToRow t k ht.1 ht.2,
      ih (k + 1) fun u hu => h u (List.mem_cons_of_mem t hu)]

/-- C2 counterexample. Committing the empty working copy and then running a
fresh fetch does NOT return the committed list: the fetch finds an empty
collection and seeds the built-in defaults, so it yields `DEFAULT_TILES`
instead of `[]`. -/
theorem save_empty_roundtrip_not_id :
    (fetchTiles (handleSave [] ⟨[], none, none, false, true⟩ [] true true "t").1
      ⟨[], none, none, false, false⟩ true true).2.tiles ≠ ([] : List Tile) := by
  decide

/-- C2 (amended). Committing a working copy `W` (delete-all then insert with
`sort_order` = index) followed by a fresh successful fetch yields a tile list
equal to `W` in ids, field values and order — provided `W` is nonempty (an
empty fetch result instead triggers default seeding), no tile of `W` carries
an empty-string `imageUrl`/`description` (the JS `||` of the row mapping
normalises those to absent), and every pre-existing row has a nonempty id
(the delete filter is neq on id against the empty string). -/
theorem handleSave_fetch_roundtrip (db : List TileRow) (st st2 : AppState)
    (W : List Tile) (now : String)
    (hdb : ∀ r ∈ db, r.id ≠ "")
    (hW : W ≠ [])
    (hfields : ∀ t ∈ W, t.imageUrl ≠ some "" ∧ t.description ≠ some "") :
    (fetchTiles (handleSave db st W true true now).1 st2 true true).2.tiles = W := by
  have hdel : db.filter (fun r => decide (r.id = "")) = [] := by
    rw [List.filter_eq_nil_iff]
    intro r hr
    simp [hdb r hr]
  have hdb1 : (handleSave db st W true true now).1 = tilesToRows W := by
    show (db.filter (fun r => decide (r.id = "")) ++ tilesToRows W, _).1 = tilesToRows W
    rw [hdel, List.nil_append]
  rw [hdb1]
  have hsort : sortRows (tilesToRows W) = tilesToRows W :=
    sortRows_eq_self _ (rowsFrom_pairwise 0 W)
  have hne : tilesToRows W ≠ [] := by
    obtain ⟨w, ws, rfl⟩ := List.exists_cons_of_ne_nil hW
    exact List.cons_ne_nil _ _
  rw [fetchTiles_of_sorted_ne_nil _ _ _ hsort hne]
  exact rowsFrom_map_rowToTile 0 W hfields

/-- Witness for `handleSave_fetch_roundtrip`: a one-tile working copy saved
over an empty store. -/
theorem handleSave_fetch_roundtrip_w :
    (∀ r ∈ ([] : List TileRow), r.id ≠ "")
  ∧ ([⟨"x", "X", "https://x", "Globe", some "img", some "d"⟩] : List Tile) ≠ []
  ∧ (∀ t ∈ ([⟨"x", "X", "https://x", "Globe", some "img", some "d"⟩] : List Tile),
      t.imageUrl ≠ some "" ∧ t.description ≠ some "")
  ∧ (fetchTiles
      (handleSave [] ⟨[], none, none, false, true⟩
        [⟨"x", "X", "https://x", "Globe", some "img", some "d"⟩] true true "now").1
      ⟨[], none, none, false, false⟩ true true).2.tiles
    = [⟨"x", "X", "https://x", "Globe", some "img", some "d"⟩] :=
  ⟨by simp, by simp, by decide,
   handleSave_fetch_roundtrip [] ⟨[], none, none, false, true⟩
     ⟨[], none, none, false, false⟩
     [⟨"x", "X", "https://x", "Globe", some "img", some "d"⟩] "now"
     (by simp) (by simp) (by decide)⟩

/-! ### C4: commit blocked while an upload is in flight -/

lemma seqOk_inv (evs : List UploadEvent) : ∀ st : UploadTrack, seqOk st evs = true →
    (st.inflight = [] ∨ ∃ i, st.inflight = [i] ∧ st.uploadingId = some i) →
    ((evs.foldl stepUpload st).inflight = []
      ∨ ∃ i, (evs.foldl stepUpload st).inflight = [i]
           ∧ (evs.foldl stepUpload st).uploadingId = some i) := by
  induction evs with
  | nil => intro st _ hi; exact hi
  | cons e rest ih =>
    intro st h hi
    cases e with
    | start id =>
      rw [seqOk, Bool.and_eq_true] at h
      refine ih (stepUpload st (UploadEvent.start id)) h.2 (Or.inr ⟨id, ?_, rfl⟩)
      show id :: st.inflight = [id]
      have he : st.inflight = [] := by simpa [List.isEmpty_iff] using h.1
      rw [he]
    | finish id =>
      rw [seqOk, Bool.and_eq_true] at h
      refine ih (stepUpload st (UploadEvent.finish id)) h.2 (Or.inl ?_)
      show st.inflight.erase id = []
      have he : st.inflight = [id] := by simpa using h.1
      rw [he, List.erase_cons_head]

/-- C4 counterexample. With two overlapping uploads (tile `a` starts, tile
`b` starts, the upload for `a` resolves first), the `finally` block of the
upload for `a` clears the single-slot `uploadingId` marker while the upload
for `b` is still in flight, so
the Save Changes button is enabled during an in-flight upload. -/
theorem commit_enabled_overlapping_uploads :
    (runUpload [UploadEvent.start "a", UploadEvent.start "b",
      UploadEvent.finish "a"]).inflight ≠ []
  ∧ saveButtonDisabled false
      (runUpload [UploadEvent.start "a", UploadEvent.start "b",
        UploadEvent.finish "a"]).uploadingId = false := by
  constructor
  · decide
  · decide

/-- C4 (amended). As long as uploads never overlap (every upload start
happens with nothing in flight), the commit action is disabled whenever an
upload is in flight; the single-slot `uploadingId` marker does not give this
guarantee for overlapping uploads. -/
theorem commit_disabled_nonoverlapping (evs : List UploadEvent) (s : Bool)
    (h : seqOk ⟨none, []⟩ evs = true) (h2 : (runUpload evs).inflight ≠ []) :
    saveButtonDisabled s (runUpload evs).uploadingId = true := by
  have hinv := seqOk_inv evs ⟨none, []⟩ h (Or.inl rfl)
  rcases hinv with hinv | ⟨i, _, hup⟩
  · exact absurd hinv h2
  · have hup2 : (runUpload evs).uploadingId = some i := hup
    rw [saveButtonDisabled, hup2]
    simp

/-- Witness for `commit_disabled_nonoverlapping`: a single in-flight upload. -/
theorem commit_disabled_nonoverlapping_w :
    seqOk ⟨none, []⟩ [UploadEvent.start "a"] = true
  ∧ (runUpload [UploadEvent.start "a"]).inflight ≠ []
  ∧ saveButtonDisabled false (runUpload [UploadEvent.start "a"]).uploadingId = true :=
  ⟨by decide, by decide,
   commit_disabled_nonoverlapping [UploadEvent.start "a"] false (by decide) (by decide)⟩

/-! ### C5: the 2 MiB upload size guard -/

/-- C5. `handleImageUpload` with a file larger than 2 MiB alerts and changes
no session state (neither the tiles nor the uploading marker); with a 1 MiB
file it proceeds, and on upload success the `imageUrl` of the tile is set to the
obtained public URL (and no alert is raised). -/
theorem handleImageUpload_size_guard (s : LMState) (id : String) (file : JsFile)
    (ok : Bool) (publicUrl : String) :
    (file.size > 2 * 1024 * 1024 →
      handleImageUpload s id file ok publicUrl
        = (s, some "Image is too large. Please use an image smaller than 2MB."))
  ∧ (file.size = 1024 * 1024 → ok = true →
      (handleImageUpload s id file ok publicUrl).2 = none
    ∧ (handleImageUpload s id file ok publicUrl).1.uploadingId = none
    ∧ ∀ t ∈ (handleImageUpload s id file ok publicUrl).1.tiles,
        t.id = id → t.imageUrl = some publicUrl) := by
  constructor
  · intro h
    rw [handleImageUpload, if_pos h]
  · intro hsz hok
    subst hok
    have hng : ¬ file.size > 2 * 1024 * 1024 := by omega
    rw [handleImageUpload, if_neg hng, if_pos rfl]
    refine ⟨rfl, rfl, ?_⟩
    intro t ht htid
    replace ht : t ∈ List.map
        (fun v => if v.id = id then setField v TileField.imageUrl publicUrl else v)
        s.tiles := ht
    rw [List.mem_map] at ht
    obtain ⟨u, _, rfl⟩ := ht
    by_cases hc : u.id = id
    · rw [if_pos hc]
      rfl
    · rw [if_neg hc] at htid
      exact absurd htid hc

/-- Witness for `handleImageUpload_size_guard`: a 3 MiB file is rejected
without touching the state; a 1 MiB file succeeds and sets the image URL. -/
theorem handleImageUpload_size_guard_w :
    ((3 * 1024 * 1024 : Nat) > 2 * 1024 * 1024
  ∧ handleImageUpload ⟨[⟨"a", "A", "https://a", "Globe", none, none⟩], none⟩ "a"
      ⟨"big.png", 3 * 1024 * 1024⟩ true "https://img"
      = (⟨[⟨"a", "A", "https://a", "Globe", none, none⟩], none⟩,
         some "Image is too large. Please use an image smaller than 2MB."))
  ∧ ((1024 * 1024 : Nat) = 1024 * 1024
  ∧ ∀ t ∈ (handleImageUpload ⟨[⟨"a", "A", "https://a", "Globe", none, none⟩], none⟩ "a"
      ⟨"ok.png", 1024 * 1024⟩ true "https://img").1.tiles,
        t.id = "a" → t.imageUrl = some "https://img") :=
  ⟨⟨by decide,
    (handleImageUpload_size_guard ⟨[⟨"a", "A", "https://a", "Globe", none, none⟩], none⟩
      "a" ⟨"big.png", 3 * 1024 * 1024⟩ true "https://img").1 (by decide)⟩,
   ⟨rfl,
    ((handleImageUpload_size_guard ⟨[⟨"a", "A", "https://a", "Globe", none, none⟩], none⟩
      "a" ⟨"ok.png", 1024 * 1024⟩ true "https://img").2 rfl rfl).2.2⟩⟩

/-! ### C6: save / reset failure leaves the pre-call state intact -/

/-- C6 counterexample. A reset whose delete succeeds but whose re-seed insert
fails does NOT retain the pre-call state: the canonical list becomes
`DEFAULT_TILES` (not the prior one-tile list), `lastUpdated` is cleared, and
no user-visible error is set (the seeding failure is only logged). -/
theorem reset_seed_failure_not_preserving :
    (handleReset [] ⟨[⟨"x", "X", "https://x", "Globe", none, none⟩],
        some "yesterday", none, false, true⟩ true false).2.tiles
      ≠ [⟨"x", "X", "https://x", "Globe", none, none⟩]
  ∧ (handleReset [] ⟨[⟨"x", "X", "https://x", "Globe", none, none⟩],
        some "yesterday", none, false, true⟩ true false).2.error = none
  ∧ (handleReset [] ⟨[⟨"x", "X", "https://x", "Globe", none, none⟩],
        some "yesterday", none, false, true⟩ true false).2.lastUpdated = none := by
  refine ⟨by decide, by decide, by decide⟩

/-- C6 (amended). A failed save (delete or insert error) and a failed reset
delete retain the pre-call canonical list and last-updated value and set a
user-visible, dismissible error; a reset whose re-seed insert fails instead
adopts the defaults and clears last-updated, logging only. -/
theorem save_reset_failure_preserves (db : List TileRow) (st : AppState)
    (W : List Tile) (now : String) :
    (∀ dOk iOk : Bool, dOk = false ∨ iOk = false →
      (handleSave db st W dOk iOk now).2.tiles = st.tiles
    ∧ (handleSave db st W dOk iOk now).2.lastUpdated = st.lastUpdated
    ∧ (handleSave db st W dOk iOk now).2.error
        = some "Failed to save changes. Please try again.")
  ∧ (∀ iOk : Bool,
      (handleReset db st false iOk).2.tiles = st.tiles
    ∧ (handleReset db st false iOk).2.lastUpdated = st.lastUpdated
    ∧ (handleReset db st false iOk).2.error
        = some "Failed to reset. Please try again.") := by
  constructor
  · intro dOk iOk h
    rcases h with rfl | rfl
    · exact ⟨rfl, rfl, rfl⟩
    · cases dOk
      · exact ⟨rfl, rfl, rfl⟩
      · exact ⟨rfl, rfl, rfl⟩
  · intro iOk
    exact ⟨rfl, rfl, rfl⟩

/-- Witness for `save_reset_failure_preserves`: a save whose delete fails,
from a one-tile state. -/
theorem save_reset_failure_preserves_w :
    ((false : Bool) = false ∨ (true : Bool) = false)
  ∧ (handleSave [] ⟨[⟨"x", "X", "https://x", "Globe", none, none⟩],
        some "yesterday", none, false, true⟩ [] false true "now").2.tiles
      = [⟨"x", "X", "https://x", "Globe", none, none⟩]
  ∧ (handleSave [] ⟨[⟨"x", "X", "https://x", "Globe", none, none⟩],
        some "yesterday", none, false, true⟩ [] false true "now").2.lastUpdated
      = some "yesterday"
  ∧ (handleSave [] ⟨[⟨"x", "X", "https://x", "Globe", none, none⟩],
        some "yesterday", none, false, true⟩ [] false true "now").2.error
      = some "Failed to save changes. Please try again." :=
  ⟨Or.inl rfl,
   ((save_reset_failure_preserves [] ⟨[⟨"x", "X", "https://x", "Globe", none, none⟩],
       some "yesterday", none, false, true⟩ [] "now").1 false true (Or.inl rfl)).1,
   ((save_reset_failure_preserves [] ⟨[⟨"x", "X", "https://x", "Globe", none, none⟩],
       some "yesterday", none, false, true⟩ [] "now").1 false true (Or.inl rfl)).2.1,
   ((save_reset_failure_preserves [] ⟨[⟨"x", "X", "https://x", "Globe", none, none⟩],
       some "yesterday", none, false, true⟩ [] "now").1 false true (Or.inl rfl)).2.2⟩

/-! ### C7: empty store on startup triggers default seeding -/

/-- C7. A fetch that finds the collection empty seeds the store with the
built-in default set (the `sort_order` of each default is its index), adopts the
defaults as the canonical list, and a subsequent fetch returns exactly that
default set in its defined order. -/
theorem fetch_empty_seeds_defaults (st st2 : AppState) :
    (fetchTiles [] st true true).1 = tilesToRows DEFAULT_TILES
  ∧ (fetchTiles [] st true true).2.tiles = DEFAULT_TILES
  ∧ (fetchTiles (fetchTiles [] st true true).1 st2 true true).2.tiles
      = DEFAULT_TILES := by
  refine ⟨rfl, rfl, ?_⟩
  have h1 : (fetchTiles [] st true true).1 = tilesToRows DEFAULT_TILES := rfl
  rw [h1, fetchTiles_of_sorted_ne_nil _ _ _ (by decide) (by decide)]
  decide

/-! ### C9: detach-image always clears the reference -/

/-- C9. For a tile with a non-empty `imageUrl`, `handleRemoveImage` clears
the `imageUrl` of that tile to the empty string in the working copy regardless of
whether the best-effort asset-store delete succeeds or fails (the outcome
does not influence the result), and leaves every other tile unchanged. -/
theorem detachImage_clears (tiles : List Tile) (id u : String) (hu : u ≠ "") :
    (∀ d1 d2 : Bool,
      handleRemoveImage tiles id (some u) d1 = handleRemoveImage tiles id (some u) d2)
  ∧ ∀ d : Bool,
      (∀ t ∈ handleRemoveImage tiles id (some u) d, t.id = id → t.imageUrl = some "")
    ∧ (∀ t ∈ handleRemoveImage tiles id (some u) d, t.id ≠ id → t ∈ tiles) := by
  have h : ∀ d : Bool, handleRemoveImage tiles id (some u) d
      = handleUpdateTile tiles id TileField.imageUrl "" := by
    intro d
    show (if u = "" then tiles else handleUpdateTile tiles id TileField.imageUrl "") = _
    rw [if_neg hu]
  constructor
  · intro d1 d2
    rw [h d1, h d2]
  · intro d
    rw [h d]
    constructor
    · intro t ht htid
      rw [handleUpdateTile, List.mem_map] at ht
      obtain ⟨v, _, rfl⟩ := ht
      by_cases hc : v.id = id
      · rw [if_pos hc]
        rfl
      · rw [if_neg hc] at htid
        exact absurd htid hc
    · intro t ht htid
      rw [handleUpdateTile, List.mem_map] at ht
      obtain ⟨v, hv, rfl⟩ := ht
      by_cases hc : v.id = id
      · rw [if_pos hc] at htid
        exact absurd hc htid
      · rw [if_neg hc]
        exact hv

/-- Witness for `detachImage_clears` on a one-tile working copy whose tile
has the image `https://old`. -/
theorem detachImage_clears_w :
    ("https://old" ≠ "")
  ∧ handleRemoveImage [⟨"a", "A", "https://a", "Globe", some "https://old", none⟩]
      "a" (some "https://old") false
    = handleRemoveImage [⟨"a", "A", "https://a", "Globe", some "https://old", none⟩]
      "a" (some "https://old") true
  ∧ ∀ t ∈ handleRemoveImage [⟨"a", "A", "https://a", "Globe", some "https://old", none⟩]
      "a" (some "https://old") false, t.id = "a" → t.imageUrl = some "" :=
  ⟨by decide,
   (detachImage_clears [⟨"a", "A", "https://a", "Globe", some "https://old", none⟩]
     "a" "https://old" (by decide)).1 false true,
   ((detachImage_clears [⟨"a", "A", "https://a", "Globe", some "https://old", none⟩]
     "a" "https://old" (by decide)).2 false).1⟩

/-! ### C10: a failed default-seed insert is logged only -/

/-- C10. When the insert of the default tiles fails, `seedDefaultTiles`
still adopts the built-in default set as the in-memory canonical list, sets
no user-visible error (the prior error state is untouched — the failure is
only logged), leaves `lastUpdated` alone, and leaves the store unchanged. -/
theorem seed_failure_adopts_defaults (db : List TileRow) (st : AppState) :
    (seedDefaultTiles db st false).2.tiles = DEFAULT_TILES
  ∧ (seedDefaultTiles db st false).2.error = st.error
  ∧ (seedDefaultTiles db st false).2.lastUpdated = st.lastUpdated
  ∧ (seedDefaultTiles db st false).1 = db :=
  ⟨rfl, rfl, rfl, rfl⟩

end Seren
